import Mathlib

/-!
Verification of the PrivyChain backend core against its specification.

The definitions below are a shallow embedding of the repository code:
the Go backend (internal/handlers, internal/services), the Node backend
(server.js and src/services), and the Solidity contract (PrivyChain.sol).
Database rows become lists of records, GORM updates become list maps,
time becomes an integer parameter, and external collaborators (storage,
ledger, cryptographic primitives) become explicit function parameters.
-/

namespace PrivyChain

/-! ## Data model (internal/models/models.go, server.js schema) -/

/-- File record row. Mirrors models.FileRecord; the created/updated
timestamps are omitted because no verified operation branches on them. -/
structure FileRecord where
  cid : String
  uploaderAddr : String
  fileSize : Nat
  isEncrypted : Bool
  fileName : String
  contentType : String
  metadata : String
  storageProvider : String
  status : String
  txHash : Option String
  deriving Repr, DecidableEq

/-- Access grant row. Mirrors models.AccessGrant (Go backend: expiry is a
non-null timestamp, modelled as integer seconds). -/
structure AccessGrant where
  cid : String
  granterAddr : String
  granteeAddr : String
  expiresAt : Int
  isActive : Bool
  deriving Repr, DecidableEq

/-- The mutable database state shared by the Go handlers. -/
structure DBState where
  files : List FileRecord
  grants : List AccessGrant
  deriving Repr, DecidableEq

/-- Webhook event envelope (types.WebhookEvent). The Go handlers read
fields out of the untyped Data map with type assertions; each optional
field models one `event.Data[k].(T)` lookup. -/
structure WebhookEvent where
  type : String
  cid : Option String
  txHash : Option String
  uploader : Option String
  granter : Option String
  grantee : Option String
  amount : Option Int
  expiresAt : Option Int
  deriving Repr, DecidableEq

/-! ## Webhook (reconciliation) handlers — internal/handlers/webhook_handler.go -/

namespace WebhookHandler

/-- handleFileUploaded: `UPDATE file_records SET status=confirmed,
tx_hash=? WHERE cid=?`. The update is unconditional on the prior status. -/
def handleFileUploaded (e : WebhookEvent) (s : DBState) : DBState :=
  match e.cid, e.txHash with
  | some cid, some tx =>
      { s with files := s.files.map fun r =>
          if r.cid = cid then { r with status := "confirmed", txHash := some tx } else r }
  | _, _ => s

/-- handleRewardClaimed: sets status to rewarded for rows matching
cid and uploader; requires cid, uploader and amount fields present. -/
def handleRewardClaimed (e : WebhookEvent) (s : DBState) : DBState :=
  match e.cid, e.uploader, e.amount with
  | some cid, some up, some _ =>
      { s with files := s.files.map fun r =>
          if r.cid = cid ∧ r.uploaderAddr = up then { r with status := "rewarded" } else r }
  | _, _, _ => s

/-- handleAccessGranted: `db.Create` appends a fresh grant row on every
delivery; a missing expires_at defaults to now plus one year. -/
def handleAccessGranted (now : Int) (e : WebhookEvent) (s : DBState) : DBState :=
  match e.cid, e.granter, e.grantee with
  | some cid, some granter, some grantee =>
      let expiresAt := match e.expiresAt with
        | some t => t
        | none => now + 365 * 24 * 3600
      { s with grants := s.grants ++
          [{ cid := cid, granterAddr := granter, granteeAddr := grantee,
             expiresAt := expiresAt, isActive := true }] }
  | _, _, _ => s

/-- handleAccessRevoked: deactivates grants matching cid and grantee. -/
def handleAccessRevoked (e : WebhookEvent) (s : DBState) : DBState :=
  match e.cid, e.grantee with
  | some cid, some grantee =>
      { s with grants := s.grants.map fun g =>
          if g.cid = cid ∧ g.granteeAddr = grantee then { g with isActive := false } else g }
  | _, _ => s

/-- handleTransactionConfirmed: sets status to confirmed for every row
whose tx_hash matches, unconditionally on the prior status. -/
def handleTransactionConfirmed (e : WebhookEvent) (s : DBState) : DBState :=
  match e.txHash with
  | some tx =>
      { s with files := s.files.map fun r =>
          if r.txHash = some tx then { r with status := "confirmed" } else r }
  | none => s

/-- handleTransactionFailed: sets status to failed for every row whose
tx_hash matches, unconditionally on the prior status. -/
def handleTransactionFailed (e : WebhookEvent) (s : DBState) : DBState :=
  match e.txHash with
  | some tx =>
      { s with files := s.files.map fun r =>
          if r.txHash = some tx then { r with status := "failed" } else r }
  | none => s

/-- The dispatch switch of HandleWebhook over event.Type; an unknown type
is logged and dropped. -/
def applyEvent (now : Int) (e : WebhookEvent) (s : DBState) : DBState :=
  match e.type with
  | "FileUploaded" => handleFileUploaded e s
  | "RewardClaimed" => handleRewardClaimed e s
  | "AccessGranted" => handleAccessGranted now e s
  | "AccessRevoked" => handleAccessRevoked e s
  | "TransactionConfirmed" => handleTransactionConfirmed e s
  | "TransactionFailed" => handleTransactionFailed e s
  | _ => s

end WebhookHandler

/-! ## File handler — internal/handlers/file_handler.go -/

namespace FileHandler

/-- Finds the record matching `WHERE cid = ? AND uploader_addr = ?`. -/
def findFileByUploader (db : DBState) (cid userAddr : String) : Option FileRecord :=
  db.files.find? fun r => r.cid == cid && r.uploaderAddr == userAddr

/-- Outcome of the ClaimReward endpoint. -/
inductive ClaimResp where
  | unauthorized
  | notFound
  | conflict
  | badRequest
  | ledgerFailed
  | rewarded (tx : String)
  deriving Repr, DecidableEq

/-- ClaimReward. `ledgerResult` stands for the blocking
blockchainService.ClaimReward call (`some txHash` on success, `none` on
ledger rejection); the third component records whether that ledger call
was submitted at all. On ledger rejection the handler returns an error
response and performs no database update. -/
def ClaimReward (ledgerResult : Option String) (sigOk : Bool)
    (cid userAddr : String) (db : DBState) : ClaimResp × DBState × Bool :=
  if ¬ sigOk then (ClaimResp.unauthorized, db, false)
  else match findFileByUploader db cid userAddr with
    | none => (ClaimResp.notFound, db, false)
    | some r =>
      if r.status = "rewarded" then (ClaimResp.conflict, db, false)
      else if r.status ≠ "confirmed" then (ClaimResp.badRequest, db, false)
      else match ledgerResult with
        | none => (ClaimResp.ledgerFailed, db, true)
        | some tx =>
          (ClaimResp.rewarded tx,
           { db with files := db.files.map fun x =>
               if x.cid = r.cid ∧ x.uploaderAddr = userAddr
               then { x with status := "rewarded" } else x },
           true)

/-- hasFileAccess: uploader of the record, or an active local grant with
`expires_at > now`. The Go implementation consults only the local
database; it never calls the blockchain service. -/
def hasFileAccess (db : DBState) (now : Int) (cid userAddr : String) : Bool :=
  db.files.any (fun r => r.cid == cid && r.uploaderAddr == userAddr)
  || db.grants.any (fun g =>
       g.cid == cid && g.granteeAddr == userAddr && g.isActive && decide (now < g.expiresAt))

end FileHandler

/-! ## Node backend access check — server.js checkFileAccess -/

namespace NodeBackend

/-- Access grant row in the Node backend schema, where expires_at is
nullable (`expires_at IS NULL OR expires_at > now`). -/
structure JsAccessGrant where
  cid : String
  granteeAddr : String
  expiresAt : Option Int
  isActive : Bool
  deriving Repr, DecidableEq

/-- Node backend database state. -/
structure JsDB where
  files : List FileRecord
  grants : List JsAccessGrant
  deriving Repr, DecidableEq

/-- The SQL grant filter `is_active = 1 AND (expires_at IS NULL OR
expires_at > now)`. -/
def jsGrantLive (now : Int) (g : JsAccessGrant) : Bool :=
  g.isActive && (match g.expiresAt with
    | none => true
    | some t => decide (now < t))

/-- checkFileAccess: uploader row, else live local grant, else — when the
contract service is ready — the on-chain hasAccess view (a thrown
blockchain error is caught and treated as no access, folded here into
`ledgerHasAccess` returning false). -/
def checkFileAccess (ledgerReady : Bool) (ledgerHasAccess : String → String → Bool)
    (db : JsDB) (now : Int) (cid userAddress : String) : Bool :=
  db.files.any (fun r => r.cid == cid && r.uploaderAddr == userAddress)
  || db.grants.any (fun g => g.cid == cid && g.granteeAddr == userAddress && jsGrantLive now g)
  || (ledgerReady && ledgerHasAccess cid userAddress)

end NodeBackend

/-- Modelled from the spec: the hasAccess contract of section 4.4, stated
over the Go data model with the ledger as an explicit oracle — uploader,
OR active local grant with future (or permanent-sentinel, itself a far
future date) expiry, OR the ledger reports access. Used only to compare
the specified access check with the implemented ones. -/
def specHasAccess (ledgerHasAccess : String → String → Bool)
    (db : DBState) (now : Int) (cid addr : String) : Bool :=
  db.files.any (fun r => r.cid == cid && r.uploaderAddr == addr)
  || db.grants.any (fun g =>
       g.cid == cid && g.granteeAddr == addr && g.isActive && decide (now < g.expiresAt))
  || ledgerHasAccess cid addr

/-! ## AEAD encryption layer — server.js EncryptionService and
src/src/services/encryptionService.js (identical classes) -/

/-- Abstract AEAD cipher. `enc key aad plaintext` returns the ciphertext
with its authentication tag; `dec` verifies the tag and returns `none` on
authentication failure. The concrete cipher in the code is aes-256-gcm
reached through the node crypto API; its byte-level behaviour is outside
the embedding, so roundtrip and rejection facts about it enter theorems
as hypotheses on this structure. -/
structure Aead where
  enc : List Nat → List Nat → List Nat → List Nat × List Nat
  dec : List Nat → List Nat → List Nat → List Nat → Option (List Nat)

/-- The fixed associated-data tag `Buffer.from(privychain, utf8)`. -/
def privychainAAD : List Nat := [112, 114, 105, 118, 121, 99, 104, 97, 105, 110]

namespace EncryptionService

/-- encrypt: draw a random 16-byte iv (passed here as the `iv` argument),
run the cipher keyed from `key` with the fixed AAD, and return
`iv ++ authTag ++ ciphertext`. The node code builds the cipher with
createCipher from the key alone, so the cipher input does not include
the iv prefix. -/
def encrypt (A : Aead) (iv : List Nat) (data key : List Nat) : List Nat :=
  let c := A.enc key privychainAAD data
  iv ++ c.2 ++ c.1

/-- decrypt: slice the blob at the fixed offsets 16 and 32 (iv, authTag,
ciphertext), set the tag and decrypt; `none` models the thrown error on
authentication failure. -/
def decrypt (A : Aead) (encryptedData key : List Nat) : Option (List Nat) :=
  let authTag := (encryptedData.drop 16).take 16
  let encrypted := encryptedData.drop 32
  A.dec key privychainAAD encrypted authTag

end EncryptionService

/-! ## Reward computation — PrivyChain.sol calculateReward -/

/-- Reward configuration state variables of the contract. -/
structure RewardConfig where
  baseRewardAmount : Nat
  sizeMultiplier : Nat
  encryptionBonus : Nat
  deriving Repr, DecidableEq

/-- The deployed default configuration: 0.01 ether base, 1000 per KB,
0.005 ether encryption bonus (in wei). -/
def defaultRewardConfig : RewardConfig :=
  { baseRewardAmount := 10 ^ 16, sizeMultiplier := 1000, encryptionBonus := 5 * 10 ^ 15 }

/-- Checked uint256 multiplication: solidity 0.8 reverts on overflow. -/
def mulU256 (a b : Nat) : Option Nat :=
  if a * b < 2 ^ 256 then some (a * b) else none

/-- Checked uint256 addition: solidity 0.8 reverts on overflow. -/
def addU256 (a b : Nat) : Option Nat :=
  if a + b < 2 ^ 256 then some (a + b) else none

/-- calculateReward: `(fileSize / 1024) * sizeMultiplier` plus the base
amount, plus the encryption bonus for encrypted files; `none` models a
revert by overflow. Division is the flooring uint256 division. -/
def calculateReward (cfg : RewardConfig) (fileSize : Nat) (isEncrypted : Bool) : Option Nat :=
  match mulU256 (fileSize / 1024) cfg.sizeMultiplier with
  | none => none
  | some sizeReward =>
    match addU256 cfg.baseRewardAmount sizeReward with
    | none => none
    | some totalReward =>
      if isEncrypted then addU256 totalReward cfg.encryptionBonus else some totalReward

/-! ## Upload pipelines -/

namespace FileHandler

/-- Response body of the Go upload endpoint. -/
structure UploadResp where
  cid : String
  fileSize : Nat
  isEncrypted : Bool
  status : String
  deriving Repr, DecidableEq

/-- The synchronous part of the Go Upload handler after signature
verification: optional encryption, storage upload (`storageCid` stands
for the storage service result), then insertion of the new row with
status pending. The blockchain RecordUpload call is launched in a
goroutine after this function returns; it is modelled separately by
`uploadAsyncStep`. `none` models an error response (bad signature or
failed storage upload). -/
def Upload (A : Aead) (keystore : String → List Nat) (iv : List Nat)
    (storageCid : Option String) (sigOk : Bool) (userAddr : String)
    (file : List Nat) (shouldEncrypt : Bool) (fileName contentType metadata : String)
    (db : DBState) : Option (DBState × UploadResp) :=
  if ¬ sigOk then none
  else
    let _fileToUpload :=
      if shouldEncrypt then EncryptionService.encrypt A iv file (keystore userAddr) else file
    match storageCid with
    | none => none
    | some cid =>
      let record : FileRecord :=
        { cid := cid, uploaderAddr := userAddr, fileSize := file.length,
          isEncrypted := shouldEncrypt, fileName := fileName, contentType := contentType,
          metadata := metadata, storageProvider := "web3storage",
          status := "pending", txHash := none }
      some ({ db with files := db.files ++ [record] },
            { cid := cid, fileSize := file.length, isEncrypted := shouldEncrypt,
              status := "pending" })

/-- The detached goroutine of the Go Upload handler: on RecordUpload
failure mark the inserted row failed, on success store the transaction
hash and mark it confirmed. -/
def uploadAsyncStep (ledgerResult : Option String) (cid : String) (db : DBState) : DBState :=
  match ledgerResult with
  | none =>
      { db with files := db.files.map fun r =>
          if r.cid = cid then { r with status := "failed" } else r }
  | some tx =>
      { db with files := db.files.map fun r =>
          if r.cid = cid then { r with status := "confirmed", txHash := some tx } else r }

/-- The retrieval endpoint. `storage` stands for web3 storage by cid; the
decrypt step uses the key of the requesting user, never the key of the
uploader. -/
inductive RetrieveResp where
  | invalidSig
  | notFound
  | accessDenied
  | storageFailed
  | decryptFailed
  | ok (data : List Nat)
  deriving Repr, DecidableEq

/-- Retrieve: signature check, record lookup by cid, hasFileAccess gate,
storage fetch, then — for encrypted records — DecryptFile with the key
belonging to `userAddr`, the requester. -/
def Retrieve (A : Aead) (keystore : String → List Nat)
    (storage : String → Option (List Nat)) (sigOk : Bool)
    (db : DBState) (now : Int) (cid userAddr : String) : RetrieveResp :=
  if ¬ sigOk then RetrieveResp.invalidSig
  else match db.files.find? (fun r => r.cid == cid) with
    | none => RetrieveResp.notFound
    | some r =>
      if ¬ hasFileAccess db now cid userAddr then RetrieveResp.accessDenied
      else match storage cid with
        | none => RetrieveResp.storageFailed
        | some fileData =>
          if r.isEncrypted then
            match EncryptionService.decrypt A fileData (keystore userAddr) with
            | none => RetrieveResp.decryptFailed
            | some d => RetrieveResp.ok d
          else RetrieveResp.ok fileData

end FileHandler

namespace NodeBackend

/-- The Node upload route (server.js app.post upload): the blockchain
recordFileUpload call happens synchronously before the insert; a thrown
blockchain error is caught, leaving tx_hash null. The row is inserted
with status confirmed either way, and the response carries status
confirmed. `none` models a storage failure response. -/
def jsUpload (ledgerResult : Option String) (storageCid : Option String)
    (userAddr : String) (file : List Nat) (shouldEncrypt : Bool)
    (fileName contentType metadata : String)
    (db : JsDB) : Option (JsDB × FileHandler.UploadResp) :=
  match storageCid with
  | none => none
  | some cid =>
    let record : FileRecord :=
      { cid := cid, uploaderAddr := userAddr, fileSize := file.length,
        isEncrypted := shouldEncrypt, fileName := fileName, contentType := contentType,
        metadata := metadata, storageProvider := "web3storage",
        status := "confirmed", txHash := ledgerResult }
    some ({ db with files := db.files ++ [record] },
          { cid := cid, fileSize := file.length, isEncrypted := shouldEncrypt,
            status := "confirmed" })

end NodeBackend

/-! ## Signature authentication — internal/services/auth_service.go -/

/-- Value of one hex digit, case-insensitive, as in encoding/hex
(fromHexChar works on byte values: 0-9, a-f, A-F). -/
def hexDigitVal (c : Char) : Option Nat :=
  let n := c.toNat
  if 48 ≤ n ∧ n ≤ 57 then some (n - 48)
  else if 97 ≤ n ∧ n ≤ 102 then some (n - 87)
  else if 65 ≤ n ∧ n ≤ 70 then some (n - 55)
  else none

/-- hex.DecodeString semantics on a char list: fails on odd length or any
non-hex character (auth_service checks the returned error). -/
def hexDecodeList : List Char → Option (List Nat)
  | [] => some []
  | [_] => none
  | c1 :: c2 :: rest =>
    match hexDigitVal c1, hexDigitVal c2, hexDecodeList rest with
    | some h, some l, some bs => some ((h * 16 + l) :: bs)
    | _, _, _ => none

/-- hex.DecodeString on a string. -/
def hexDecode (s : String) : Option (List Nat) := hexDecodeList s.data

/-- strings.TrimPrefix: Go strings are byte slices, so the prefix test
and cut act on the character data. -/
def trimPrefixStr (p s : String) : String :=
  if p.data.isPrefixOf s.data then String.mk (s.data.drop p.data.length) else s

/-- The partial decode used by common.Hex2Bytes (the error from
hex.DecodeString is discarded, keeping the bytes decoded before the
first bad pair). -/
def hex2BytesChars : List Char → List Nat
  | c1 :: c2 :: rest =>
    match hexDigitVal c1, hexDigitVal c2 with
    | some h, some l => (h * 16 + l) :: hex2BytesChars rest
    | _, _ => []
  | _ => []

/-- common.BytesToAddress: keep the last 20 bytes, left-pad to 20. -/
def bytesToAddress (b : List Nat) : List Nat :=
  let b2 := if b.length > 20 then b.drop (b.length - 20) else b
  List.replicate (20 - b2.length) 0 ++ b2

/-- common.FromHex prefix stripping (has0xPrefix): a leading 0x or 0X. -/
def strip0xChars : List Char → List Char
  | c1 :: c2 :: rest =>
    if c1 = '0' ∧ (c2 = 'x' ∨ c2 = 'X') then rest else c1 :: c2 :: rest
  | l => l

/-- common.HexToAddress on the char list: strip the prefix, left-pad to
even length with a zero digit, partially decode, truncate or pad to a
20-byte address. -/
def addrFromHexChars (l : List Char) : List Nat :=
  let l1 := strip0xChars l
  let l2 := if l1.length % 2 = 1 then '0' :: l1 else l1
  bytesToAddress (hex2BytesChars l2)

/-- common.HexToAddress. -/
def hexToAddress (s : String) : List Nat := addrFromHexChars s.data

/-- Abstract secp256k1 primitives used through go-ethereum crypto:
Keccak-256, public-key recovery from a 65-byte signature (`none` on
recovery failure), and public-key-to-address derivation. -/
structure EthCrypto where
  keccak : List Nat → List Nat
  recover : List Nat → List Nat → Option (List Nat)
  pubToAddr : List Nat → List Nat

/-- Byte view of an ASCII string. -/
def asciiBytes (s : String) : List Nat := s.data.map Char.toNat

namespace AuthService

/-- createMessageHash: Keccak-256 of the personal-message prefix
(0x19 Ethereum Signed Message newline, then the byte length of the
message) followed by the message bytes. -/
def createMessageHash (E : EthCrypto) (message : List Nat) : List Nat :=
  E.keccak (asciiBytes ("\x19Ethereum Signed Message:\n" ++ toString message.length) ++ message)

/-- The recovery-byte normalization: a trailing 27 or 28 becomes 0 or 1. -/
def normalizeRecoveryByte (sig : List Nat) : List Nat :=
  let v := sig.getD 64 0
  if v = 27 ∨ v = 28 then sig.take 64 ++ [v - 27] else sig

/-- VerifySignature: hash the message, hex-decode the signature after
stripping an optional 0x, require exactly 65 bytes, normalize the
recovery byte, recover the signer, and compare the derived address with
HexToAddress of the claimed address (byte equality of parsed addresses,
hence independent of hex-digit case). Every failure returns false. -/
def VerifySignature (E : EthCrypto) (address signature : String) (message : List Nat) : Bool :=
  let messageHash := createMessageHash E message
  match hexDecode (trimPrefixStr "0x" signature) with
  | none => false
  | some sig =>
    if sig.length ≠ 65 then false
    else
      match E.recover messageHash (normalizeRecoveryByte sig) with
      | none => false
      | some pubKey => E.pubToAddr pubKey == hexToAddress address

end AuthService

/-! ## Webhook authenticity gate — webhook_handler.go verifySignature,
HandleWebhook and HandleBlockchainEvent -/

namespace WebhookHandler

/-- verifySignature: reject an empty configured secret or an empty
header; strip an optional sha256= prefix; recompute the hex-encoded
HMAC-SHA256 of the raw request body under the secret (`hmacHex` stands
for that keyed primitive) and compare with hmac.Equal — a constant-time
byte comparison, modelled extensionally as string equality. `rawBody` is
`none` when the raw-body middleware stored nothing. -/
def verifySignature (hmacHex : String → List Nat → String)
    (secretKey signature : String) (rawBody : Option (List Nat)) : Bool :=
  if secretKey = "" || signature = "" then false
  else
    let sig := trimPrefixStr "sha256=" signature
    match rawBody with
    | none => false
    | some body => sig == hmacHex secretKey body

/-- HTTP outcome of the webhook endpoints. -/
inductive WebhookResp where
  | unauthorized
  | badRequest
  | ok
  deriving Repr, DecidableEq

/-- HandleWebhook: the HMAC gate runs first; on failure the request ends
with 401 and no handler runs. `parsedEvent` is the bound JSON body
(`none` on a malformed body). -/
def HandleWebhook (hmacHex : String → List Nat → String) (secretKey sigHeader : String)
    (rawBody : Option (List Nat)) (parsedEvent : Option WebhookEvent)
    (now : Int) (s : DBState) : WebhookResp × DBState :=
  if ¬ verifySignature hmacHex secretKey sigHeader rawBody then (WebhookResp.unauthorized, s)
  else match parsedEvent with
    | none => (WebhookResp.badRequest, s)
    | some e => (WebhookResp.ok, applyEvent now e s)

/-- Envelope bound by HandleBlockchainEvent. -/
structure BlockchainEvent where
  event : String
  address : String
  blockNumber : Nat
  txHash : String
  deriving Repr, DecidableEq

/-- HandleBlockchainEvent: binds the JSON body and dispatches to the
process handlers, which only log; the endpoint performs no authenticity
check of any kind and answers 200 for every well-formed event. -/
def HandleBlockchainEvent (parsedEvent : Option BlockchainEvent)
    (s : DBState) : WebhookResp × DBState :=
  match parsedEvent with
  | none => (WebhookResp.badRequest, s)
  | some _ => (WebhookResp.ok, s)

end WebhookHandler

/-! ## Concrete fixtures used by counterexamples and witnesses -/

/-- A record that has already reached the terminal rewarded status. -/
def sampleRewarded : FileRecord :=
  { cid := "c1", uploaderAddr := "u1", fileSize := 100, isEncrypted := false,
    fileName := "a.txt", contentType := "text/plain", metadata := "\x7b\x7d",
    storageProvider := "web3storage", status := "rewarded", txHash := some "t0" }

/-- A record confirmed on chain and not yet rewarded. -/
def sampleConfirmed : FileRecord :=
  { sampleRewarded with status := "confirmed" }

/-- An encrypted confirmed record. -/
def sampleEncrypted : FileRecord :=
  { sampleConfirmed with isEncrypted := true }

/-- A delayed FileUploaded reconciliation event for cid c1. -/
def sampleFileUploadedEvent : WebhookEvent :=
  { type := "FileUploaded", cid := some "c1", txHash := some "t1",
    uploader := none, granter := none, grantee := none, amount := none, expiresAt := none }

/-- A TransactionFailed reconciliation event for the hash t0. -/
def sampleTxFailedEvent : WebhookEvent :=
  { type := "TransactionFailed", cid := none, txHash := some "t0",
    uploader := none, granter := none, grantee := none, amount := none, expiresAt := none }

/-- An AccessGranted reconciliation event for cid c1 and grantee v1. -/
def sampleAccessGrantedEvent : WebhookEvent :=
  { type := "AccessGranted", cid := some "c1", txHash := none,
    uploader := none, granter := some "u1", grantee := some "v1",
    amount := none, expiresAt := some 1000 }

/-- A ledger oracle that reports access for every pair. -/
def ledgerAlways : String → String → Bool := fun _ _ => true

/-- A toy AEAD instance used to instantiate cipher hypotheses in
witnesses: the ciphertext binds the key, the tag is a fixed 16-byte
block, and decryption checks both. -/
def toyAead : Aead :=
  { enc := fun key _ data => (key ++ data, List.replicate 16 7),
    dec := fun key _ c t =>
      if t = List.replicate 16 7 ∧ c.take key.length = key
      then some (c.drop key.length) else none }

/-- A toy per-user keystore with distinct 32-byte keys. -/
def toyKeystore : String → List Nat :=
  fun a => if a = "u1" then List.replicate 32 5 else List.replicate 32 9

/-- A 16-byte iv for witnesses. -/
def sampleIv : List Nat := List.replicate 16 0

/-- A toy recovery oracle for witnesses: the hash is the identity, the
recovery succeeds when the recovery byte is zero and returns the
signature bytes as the public key, and the address of a public key is
its first 20 bytes. -/
def toyEthCrypto : EthCrypto :=
  { keccak := fun b => b,
    recover := fun _ sig => if sig.getD 64 0 = 0 then some sig else none,
    pubToAddr := fun pk => pk.take 20 }

/-! ## Helper lemmas -/

/-- Mapping an idempotent function twice equals mapping it once. -/
theorem listMapIdem {α : Type} (f : α → α) (hf : ∀ a, f (f a) = f a) :
    ∀ l : List α, (l.map f).map f = l.map f := by
  intro l
  induction l with
  | nil => rfl
  | cons a t ih => simp [hf, ih]

/-- Unfolded form of calculateReward on a non-reverting run. -/
theorem calculateReward_eq_some (cfg : RewardConfig) (size : Nat) (enc : Bool) (r : Nat)
    (h : calculateReward cfg size enc = some r) :
    r = cfg.baseRewardAmount + size / 1024 * cfg.sizeMultiplier
      + (if enc then cfg.encryptionBonus else 0) := by
  unfold calculateReward mulU256 addU256 at h
  by_cases h1 : size / 1024 * cfg.sizeMultiplier < 2 ^ 256
  · rw [if_pos h1] at h
    simp only at h
    by_cases h2 : cfg.baseRewardAmount + size / 1024 * cfg.sizeMultiplier < 2 ^ 256
    · rw [if_pos h2] at h
      simp only at h
      cases enc with
      | false =>
        simp at h ⊢
        omega
      | true =>
        simp only [if_true] at h
        by_cases h3 : cfg.baseRewardAmount + size / 1024 * cfg.sizeMultiplier
            + cfg.encryptionBonus < 2 ^ 256
        · rw [if_pos h3] at h
          simp at h ⊢
          omega
        · rw [if_neg h3] at h
          exact absurd h (by simp)
    · rw [if_neg h2] at h
      exact absurd h (by simp)
  · rw [if_neg h1] at h
    exact absurd h (by simp)

/-! ## C5 -/

/-- C5: for every configuration, size and encryption flag, a
non-reverting calculateReward run returns exactly
base + floor(size / 1024) * sizeMultiplier + (encryptionBonus when
encrypted); and the result is non-decreasing in the size (the function
is deterministic because it is a pure function of its arguments). -/
theorem calculateReward_formula_and_monotone :
    (∀ (cfg : RewardConfig) (size : Nat) (enc : Bool) (r : Nat),
      calculateReward cfg size enc = some r →
      r = cfg.baseRewardAmount + size / 1024 * cfg.sizeMultiplier
        + (if enc then cfg.encryptionBonus else 0)) ∧
    (∀ (cfg : RewardConfig) (s1 s2 : Nat) (enc : Bool) (r1 r2 : Nat),
      s1 ≤ s2 →
      calculateReward cfg s1 enc = some r1 →
      calculateReward cfg s2 enc = some r2 →
      r1 ≤ r2) := by
  constructor
  · exact calculateReward_eq_some
  · intro cfg s1 s2 enc r1 r2 hle h1 h2
    have e1 := calculateReward_eq_some cfg s1 enc r1 h1
    have e2 := calculateReward_eq_some cfg s2 enc r2 h2
    have hdiv : s1 / 1024 ≤ s2 / 1024 := Nat.div_le_div_right hle
    have hmul : s1 / 1024 * cfg.sizeMultiplier ≤ s2 / 1024 * cfg.sizeMultiplier :=
      Nat.mul_le_mul_right _ hdiv
    omega

/-- Witness for C5: the spec scenario of a 2048-byte encrypted file under
the deployed default configuration, and monotonicity from size 1 to
size 2048. -/
theorem calculateReward_formula_and_monotone_witness :
    (15000000000002000 : Nat) = defaultRewardConfig.baseRewardAmount
      + 2048 / 1024 * defaultRewardConfig.sizeMultiplier
      + (if true then defaultRewardConfig.encryptionBonus else 0) ∧
    (15000000000000000 : Nat) ≤ 15000000000002000 :=
  ⟨calculateReward_formula_and_monotone.1 defaultRewardConfig 2048 true _ (by decide),
   calculateReward_formula_and_monotone.2 defaultRewardConfig 1 2048 true _ _
     (by decide) (by decide) (by decide)⟩

/-! ## C1 -/

/-- C1 counterexample: a delayed FileUploaded reconciliation event
applied to a record already in the terminal rewarded status overwrites
the status with confirmed, so the event does change the status of a
terminal record, contrary to the claim. -/
theorem rewarded_record_regresses_on_delayed_event :
    sampleRewarded.status = "rewarded" ∧
    (WebhookHandler.applyEvent 0 sampleFileUploadedEvent
        { files := [sampleRewarded], grants := [] }).files.map FileRecord.status
      = ["confirmed"] ∧
    ("confirmed" : String) ≠ "rewarded" := by
  refine ⟨rfl, ?_, by decide⟩
  rfl

/-- C1 (amended): the webhook handlers apply their status updates
unconditionally — there is no terminal-state or regression guard.
handleFileUploaded rewrites every record with the matching cid to status
confirmed with the delivered transaction hash, and handleTransactionFailed
rewrites every record with the matching transaction hash to status
failed, regardless of the prior status (in particular a record in the
terminal rewarded status is moved back). Stated as a full elementwise
characterization of the resulting record list. -/
theorem webhook_updates_ignore_terminal_status :
    (∀ (e : WebhookEvent) (s : DBState) (cid tx : String),
      e.cid = some cid → e.txHash = some tx → ∀ i : Nat,
      (WebhookHandler.handleFileUploaded e s).files[i]? =
        (s.files[i]?).map fun r =>
          if r.cid = cid then { r with status := "confirmed", txHash := some tx } else r) ∧
    (∀ (e : WebhookEvent) (s : DBState) (tx : String),
      e.txHash = some tx → ∀ i : Nat,
      (WebhookHandler.handleTransactionFailed e s).files[i]? =
        (s.files[i]?).map fun r =>
          if r.txHash = some tx then { r with status := "failed" } else r) := by
  constructor
  · intro e s cid tx hc ht i
    unfold WebhookHandler.handleFileUploaded
    rw [hc, ht]
    simp [List.getElem?_map]
  · intro e s tx ht i
    unfold WebhookHandler.handleTransactionFailed
    rw [ht]
    simp [List.getElem?_map]

/-- Witness for C1 (amended): the delayed FileUploaded event rewrites the
rewarded sample record to confirmed, and a TransactionFailed event for
its hash rewrites it to failed. -/
theorem webhook_updates_ignore_terminal_status_witness :
    (WebhookHandler.handleFileUploaded sampleFileUploadedEvent
        { files := [sampleRewarded], grants := [] }).files[0]? =
      some { sampleRewarded with status := "confirmed", txHash := some "t1" } ∧
    (WebhookHandler.handleTransactionFailed sampleTxFailedEvent
        { files := [sampleRewarded], grants := [] }).files[0]? =
      some { sampleRewarded with status := "failed" } := by
  constructor
  · rw [webhook_updates_ignore_terminal_status.1 sampleFileUploadedEvent
      { files := [sampleRewarded], grants := [] } "c1" "t1" rfl rfl 0]
    rfl
  · rw [webhook_updates_ignore_terminal_status.2 sampleTxFailedEvent
      { files := [sampleRewarded], grants := [] } "t0" rfl 0]
    rfl

/-! ## C6 -/

/-- C6 counterexample: replaying an identical AccessGranted
reconciliation event is not a no-op — the handler creates a second grant
row, so the state after two applications differs from the state after
one. -/
theorem access_granted_replay_duplicates_rows :
    (WebhookHandler.applyEvent 0 sampleAccessGrantedEvent
        (WebhookHandler.applyEvent 0 sampleAccessGrantedEvent
          { files := [], grants := [] })).grants.length = 2 ∧
    (WebhookHandler.applyEvent 0 sampleAccessGrantedEvent
        { files := [], grants := [] }).grants.length = 1 ∧
    (WebhookHandler.applyEvent 0 sampleAccessGrantedEvent
        (WebhookHandler.applyEvent 0 sampleAccessGrantedEvent
          { files := [], grants := [] }))
      ≠ WebhookHandler.applyEvent 0 sampleAccessGrantedEvent
          { files := [], grants := [] } := by
  refine ⟨rfl, rfl, ?_⟩
  decide

/-- C6 (amended): the update-based reconciliation handlers
(FileUploaded, RewardClaimed, AccessRevoked, TransactionConfirmed,
TransactionFailed) are idempotent — applying the same event twice gives
the state of applying it once — but the AccessGranted handler is not:
each delivery appends a fresh grant row, so a replayed event leaves two
rows where one application leaves one. -/
theorem webhook_idempotent_except_access_granted :
    (∀ (e : WebhookEvent) (s : DBState),
      WebhookHandler.handleFileUploaded e (WebhookHandler.handleFileUploaded e s)
        = WebhookHandler.handleFileUploaded e s) ∧
    (∀ (e : WebhookEvent) (s : DBState),
      WebhookHandler.handleRewardClaimed e (WebhookHandler.handleRewardClaimed e s)
        = WebhookHandler.handleRewardClaimed e s) ∧
    (∀ (e : WebhookEvent) (s : DBState),
      WebhookHandler.handleAccessRevoked e (WebhookHandler.handleAccessRevoked e s)
        = WebhookHandler.handleAccessRevoked e s) ∧
    (∀ (e : WebhookEvent) (s : DBState),
      WebhookHandler.handleTransactionConfirmed e (WebhookHandler.handleTransactionConfirmed e s)
        = WebhookHandler.handleTransactionConfirmed e s) ∧
    (∀ (e : WebhookEvent) (s : DBState),
      WebhookHandler.handleTransactionFailed e (WebhookHandler.handleTransactionFailed e s)
        = WebhookHandler.handleTransactionFailed e s) ∧
    (∀ (now : Int) (e : WebhookEvent) (s : DBState) (cid granter grantee : String),
      e.cid = some cid → e.granter = some granter → e.grantee = some grantee →
      (WebhookHandler.handleAccessGranted now e
          (WebhookHandler.handleAccessGranted now e s)).grants.length
        = s.grants.length + 2) := by
  refine ⟨?_, ?_, ?_, ?_, ?_, ?_⟩
  · intro e s
    cases hc : e.cid with
    | none => simp [WebhookHandler.handleFileUploaded, hc]
    | some cid =>
      cases ht : e.txHash with
      | none => simp [WebhookHandler.handleFileUploaded, hc, ht]
      | some tx =>
        simp only [WebhookHandler.handleFileUploaded, hc, ht]
        rw [listMapIdem]
        intro r
        by_cases h : r.cid = cid <;> simp [h]
  · intro e s
    cases hc : e.cid with
    | none => simp [WebhookHandler.handleRewardClaimed, hc]
    | some cid =>
      cases hu : e.uploader with
      | none => simp [WebhookHandler.handleRewardClaimed, hc, hu]
      | some up =>
        cases ha : e.amount with
        | none => simp [WebhookHandler.handleRewardClaimed, hc, hu, ha]
        | some a =>
          simp only [WebhookHandler.handleRewardClaimed, hc, hu, ha]
          rw [listMapIdem]
          intro r
          by_cases h : r.cid = cid ∧ r.uploaderAddr = up <;> simp [h]
  · intro e s
    cases hc : e.cid with
    | none => simp [WebhookHandler.handleAccessRevoked, hc]
    | some cid =>
      cases hg : e.grantee with
      | none => simp [WebhookHandler.handleAccessRevoked, hc, hg]
      | some grantee =>
        simp only [WebhookHandler.handleAccessRevoked, hc, hg]
        rw [listMapIdem]
        intro g
        by_cases h : g.cid = cid ∧ g.granteeAddr = grantee <;> simp [h]
  · intro e s
    cases ht : e.txHash with
    | none => simp [WebhookHandler.handleTransactionConfirmed, ht]
    | some tx =>
      simp only [WebhookHandler.handleTransactionConfirmed, ht]
      rw [listMapIdem]
      intro r
      by_cases h : r.txHash = some tx <;> simp [h]
  · intro e s
    cases ht : e.txHash with
    | none => simp [WebhookHandler.handleTransactionFailed, ht]
    | some tx =>
      simp only [WebhookHandler.handleTransactionFailed, ht]
      rw [listMapIdem]
      intro r
      by_cases h : r.txHash = some tx <;> simp [h]
  · intro now e s cid granter grantee hc hg hge
    simp [WebhookHandler.handleAccessGranted, hc, hg, hge]

/-- Witness for C6 (amended): replaying the sample FileUploaded event is
a no-op on the second application, and replaying the sample
AccessGranted event on the empty state leaves two grant rows. -/
theorem webhook_idempotent_except_access_granted_witness :
    WebhookHandler.handleFileUploaded sampleFileUploadedEvent
        (WebhookHandler.handleFileUploaded sampleFileUploadedEvent
          { files := [sampleRewarded], grants := [] })
      = WebhookHandler.handleFileUploaded sampleFileUploadedEvent
          { files := [sampleRewarded], grants := [] } ∧
    (WebhookHandler.handleAccessGranted 0 sampleAccessGrantedEvent
        (WebhookHandler.handleAccessGranted 0 sampleAccessGrantedEvent
          { files := [], grants := [] })).grants.length = 0 + 2 :=
  ⟨webhook_idempotent_except_access_granted.1 sampleFileUploadedEvent
      { files := [sampleRewarded], grants := [] },
   webhook_idempotent_except_access_granted.2.2.2.2.2 0 sampleAccessGrantedEvent
      { files := [], grants := [] } "c1" "u1" "v1" rfl rfl rfl⟩

/-! ## C2 -/

/-- Ownership facts carried by a successful record lookup. -/
theorem findFileByUploader_spec (db : DBState) (cid u : String) (r : FileRecord)
    (h : FileHandler.findFileByUploader db cid u = some r) :
    r ∈ db.files ∧ r.cid = cid ∧ r.uploaderAddr = u := by
  unfold FileHandler.findFileByUploader at h
  refine ⟨List.mem_of_find?_eq_some h, ?_, ?_⟩
  · have hp := List.find?_some h
    simp only [Bool.and_eq_true, beq_iff_eq] at hp
    exact hp.1
  · have hp := List.find?_some h
    simp only [Bool.and_eq_true, beq_iff_eq] at hp
    exact hp.2

/-- C2: the claim endpoint succeeds only when the claimant is the
uploader of the record (the lookup filters on uploader), the local
status is confirmed, and the ledger accepted the claim; a record already
rewarded is answered with a conflict and no ledger transaction is
submitted; any other non-confirmed status is rejected before submission;
a ledger rejection surfaces an error response and leaves the database
unchanged; and on success the record transitions to rewarded. -/
theorem claimReward_guarded :
    (∀ (L : Option String) (sig : Bool) (cid u : String) (db : DBState) (tx : String),
      (FileHandler.ClaimReward L sig cid u db).1 = FileHandler.ClaimResp.rewarded tx →
      sig = true ∧ ∃ r, FileHandler.findFileByUploader db cid u = some r ∧
        r.status = "confirmed" ∧ L = some tx) ∧
    (∀ (L : Option String) (cid u : String) (db : DBState),
      FileHandler.findFileByUploader db cid u = none →
      FileHandler.ClaimReward L true cid u db = (FileHandler.ClaimResp.notFound, db, false)) ∧
    (∀ (L : Option String) (cid u : String) (db : DBState) (r : FileRecord),
      FileHandler.findFileByUploader db cid u = some r →
      r.status = "rewarded" →
      FileHandler.ClaimReward L true cid u db = (FileHandler.ClaimResp.conflict, db, false)) ∧
    (∀ (L : Option String) (cid u : String) (db : DBState) (r : FileRecord),
      FileHandler.findFileByUploader db cid u = some r →
      r.status ≠ "rewarded" → r.status ≠ "confirmed" →
      FileHandler.ClaimReward L true cid u db = (FileHandler.ClaimResp.badRequest, db, false)) ∧
    (∀ (cid u : String) (db : DBState) (r : FileRecord),
      FileHandler.findFileByUploader db cid u = some r →
      r.status = "confirmed" →
      FileHandler.ClaimReward none true cid u db = (FileHandler.ClaimResp.ledgerFailed, db, true)) ∧
    (∀ (tx cid u : String) (db : DBState) (r : FileRecord),
      FileHandler.findFileByUploader db cid u = some r →
      r.status = "confirmed" →
      FileHandler.ClaimReward (some tx) true cid u db =
        (FileHandler.ClaimResp.rewarded tx,
         { db with files := db.files.map fun x =>
             if x.cid = r.cid ∧ x.uploaderAddr = u then { x with status := "rewarded" } else x },
         true) ∧
      { r with status := "rewarded" } ∈
        (FileHandler.ClaimReward (some tx) true cid u db).2.1.files) := by
  refine ⟨?_, ?_, ?_, ?_, ?_, ?_⟩
  · intro L sig cid u db tx h
    cases sig with
    | false => simp [FileHandler.ClaimReward] at h
    | true =>
      refine ⟨rfl, ?_⟩
      simp only [FileHandler.ClaimReward] at h
      cases hf : FileHandler.findFileByUploader db cid u with
      | none => rw [hf] at h; simp at h
      | some r =>
        rw [hf] at h
        simp only at h
        by_cases h1 : r.status = "rewarded"
        · rw [if_pos h1] at h; simp at h
        · rw [if_neg h1] at h
          by_cases h2 : r.status ≠ "confirmed"
          · rw [if_pos h2] at h; simp at h
          · rw [if_neg h2] at h
            push_neg at h2
            cases hL : L with
            | none => rw [hL] at h; simp at h
            | some tx2 =>
              rw [hL] at h
              simp at h
              exact ⟨r, rfl, h2, by rw [h]⟩
  · intro L cid u db hf
    simp [FileHandler.ClaimReward, hf]
  · intro L cid u db r hf hst
    simp [FileHandler.ClaimReward, hf, hst]
  · intro L cid u db r hf hnr hnc
    simp [FileHandler.ClaimReward, hf, hnr, hnc]
  · intro cid u db r hf hst
    simp [FileHandler.ClaimReward, hf, hst]
  · intro tx cid u db r hf hst
    have hspec := findFileByUploader_spec db cid u r hf
    have heq : FileHandler.ClaimReward (some tx) true cid u db =
        (FileHandler.ClaimResp.rewarded tx,
         { db with files := db.files.map fun x =>
             if x.cid = r.cid ∧ x.uploaderAddr = u then { x with status := "rewarded" } else x },
         true) := by
      simp [FileHandler.ClaimReward, hf, hst]
    refine ⟨heq, ?_⟩
    rw [heq]
    refine List.mem_map.mpr ⟨r, hspec.1, ?_⟩
    simp [hspec.2.2]

/-- Witness for C2: on the confirmed sample record the claim succeeds and
marks it rewarded; on the rewarded sample record the second claim is
answered with a conflict, the ledger is not called and the database is
unchanged. -/
theorem claimReward_guarded_witness :
    FileHandler.ClaimReward (some "t9") true "c1" "u1"
        { files := [sampleConfirmed], grants := [] } =
      (FileHandler.ClaimResp.rewarded "t9",
       { files := [{ sampleConfirmed with status := "rewarded" }], grants := [] }, true) ∧
    FileHandler.ClaimReward (some "t9") true "c1" "u1"
        { files := [sampleRewarded], grants := [] } =
      (FileHandler.ClaimResp.conflict, { files := [sampleRewarded], grants := [] }, false) := by
  constructor
  · have h := (claimReward_guarded.2.2.2.2.2 "t9" "c1" "u1"
      { files := [sampleConfirmed], grants := [] } sampleConfirmed rfl rfl).1
    rw [h]
    decide
  · exact claimReward_guarded.2.2.1 (some "t9") "c1" "u1"
      { files := [sampleRewarded], grants := [] } sampleRewarded rfl rfl

/-! ## C3 -/

/-- Unfolded truth condition of the Node grant liveness filter. -/
theorem jsGrantLive_eq_true (now : Int) (g : NodeBackend.JsAccessGrant) :
    NodeBackend.jsGrantLive now g = true ↔
      g.isActive = true ∧
        (g.expiresAt = none ∨ ∃ t, g.expiresAt = some t ∧ now < t) := by
  unfold NodeBackend.jsGrantLive
  cases h : g.expiresAt with
  | none => simp
  | some t => simp [h]

/-- C3 counterexample: the Go access check returns false for an address
that is not the uploader and has no local grant even though the ledger
reports access for the pair, so the claimed if-and-only-if with a ledger
disjunct fails on the Go backend. -/
theorem hasFileAccess_misses_ledger_grant :
    FileHandler.hasFileAccess { files := [sampleConfirmed], grants := [] } 0 "c1" "v1" = false ∧
    ledgerAlways "c1" "v1" = true ∧
    specHasAccess ledgerAlways { files := [sampleConfirmed], grants := [] } 0 "c1" "v1" = true := by
  refine ⟨?_, rfl, ?_⟩ <;> decide

/-- C3 (amended): the Go check hasFileAccess is true exactly when the
address is the uploader of the record or an active local grant with
strictly future expiry exists — it never consults the ledger; only the
Node check checkFileAccess additionally ORs the ledger answer when the
contract service is ready. In both backends the uploader always has
access, and the expiry boundary is strict: a grant expiring one second
in the future allows access now and one expired a second ago denies
it. -/
theorem access_check_characterization :
    (∀ (db : DBState) (now : Int) (cid addr : String),
      FileHandler.hasFileAccess db now cid addr = true ↔
        (∃ r ∈ db.files, r.cid = cid ∧ r.uploaderAddr = addr) ∨
        (∃ g ∈ db.grants, g.cid = cid ∧ g.granteeAddr = addr ∧
          g.isActive = true ∧ now < g.expiresAt)) ∧
    (∀ (ready : Bool) (ledger : String → String → Bool) (db : NodeBackend.JsDB)
       (now : Int) (cid addr : String),
      NodeBackend.checkFileAccess ready ledger db now cid addr = true ↔
        (∃ r ∈ db.files, r.cid = cid ∧ r.uploaderAddr = addr) ∨
        (∃ g ∈ db.grants, g.cid = cid ∧ g.granteeAddr = addr ∧
          g.isActive = true ∧ (g.expiresAt = none ∨ ∃ t, g.expiresAt = some t ∧ now < t)) ∨
        (ready = true ∧ ledger cid addr = true)) ∧
    (∀ (db : DBState) (now : Int) (r : FileRecord),
      r ∈ db.files →
      FileHandler.hasFileAccess db now r.cid r.uploaderAddr = true) ∧
    (∀ (ready : Bool) (ledger : String → String → Bool) (db : NodeBackend.JsDB)
       (now : Int) (r : FileRecord),
      r ∈ db.files →
      NodeBackend.checkFileAccess ready ledger db now r.cid r.uploaderAddr = true) ∧
    (∀ (now : Int) (cid granter grantee : String),
      FileHandler.hasFileAccess
        { files := [],
          grants := [{ cid := cid, granterAddr := granter, granteeAddr := grantee,
                       expiresAt := now + 1, isActive := true }] } now cid grantee = true ∧
      FileHandler.hasFileAccess
        { files := [],
          grants := [{ cid := cid, granterAddr := granter, granteeAddr := grantee,
                       expiresAt := now - 1, isActive := true }] } now cid grantee = false) := by
  refine ⟨?_, ?_, ?_, ?_, ?_⟩
  · intro db now cid addr
    unfold FileHandler.hasFileAccess
    simp [List.any_eq_true, and_assoc]
  · intro ready ledger db now cid addr
    unfold NodeBackend.checkFileAccess
    simp only [Bool.or_eq_true, List.any_eq_true, Bool.and_eq_true, beq_iff_eq]
    constructor
    · rintro ((⟨r, hr, h1, h2⟩ | ⟨g, hg, ⟨h1, h2⟩, h3⟩) | ⟨h1, h2⟩)
      · exact Or.inl ⟨r, hr, h1, h2⟩
      · exact Or.inr (Or.inl ⟨g, hg, h1, h2, (jsGrantLive_eq_true now g).mp h3⟩)
      · exact Or.inr (Or.inr ⟨h1, h2⟩)
    · rintro (⟨r, hr, h1, h2⟩ | ⟨g, hg, h1, h2, h3, h4⟩ | ⟨h1, h2⟩)
      · exact Or.inl (Or.inl ⟨r, hr, h1, h2⟩)
      · exact Or.inl (Or.inr ⟨g, hg, ⟨h1, h2⟩, (jsGrantLive_eq_true now g).mpr ⟨h3, h4⟩⟩)
      · exact Or.inr ⟨h1, h2⟩
  · intro db now r hr
    unfold FileHandler.hasFileAccess
    simp only [Bool.or_eq_true, List.any_eq_true, Bool.and_eq_true, beq_iff_eq]
    exact Or.inl ⟨r, hr, rfl, rfl⟩
  · intro ready ledger db now r hr
    unfold NodeBackend.checkFileAccess
    simp only [Bool.or_eq_true, List.any_eq_true, Bool.and_eq_true, beq_iff_eq]
    exact Or.inl (Or.inl ⟨r, hr, rfl, rfl⟩)
  · intro now cid granter grantee
    constructor
    · unfold FileHandler.hasFileAccess
      simp
    · unfold FileHandler.hasFileAccess
      simp

/-- Witness for C3 (amended): the uploader of the confirmed sample record
has access in both backends for a concrete state with no grant rows. -/
theorem access_check_characterization_witness :
    FileHandler.hasFileAccess { files := [sampleConfirmed], grants := [] } 0
      sampleConfirmed.cid sampleConfirmed.uploaderAddr = true ∧
    NodeBackend.checkFileAccess false ledgerAlways
      { files := [sampleConfirmed], grants := [] } 0
      sampleConfirmed.cid sampleConfirmed.uploaderAddr = true :=
  ⟨access_check_characterization.2.2.1 { files := [sampleConfirmed], grants := [] } 0
      sampleConfirmed (List.mem_singleton.mpr rfl),
   access_check_characterization.2.2.2.1 false ledgerAlways
      { files := [sampleConfirmed], grants := [] } 0
      sampleConfirmed (List.mem_singleton.mpr rfl)⟩

/-! ## C4 -/

/-- C4 counterexample: in the Node backend a successful upload request
(storage upload succeeded, blockchain recording failed and was caught)
inserts the record with status confirmed and answers the client with
status confirmed, not pending. -/
theorem nodeUpload_inserts_confirmed_not_pending :
    (NodeBackend.jsUpload none (some "c1") "u1" [1, 2] false "a.txt" "text/plain" "\x7b\x7d"
        { files := [], grants := [] }).map
        (fun p => (p.1.files.map FileRecord.status, p.2.status))
      = some (["confirmed"], "confirmed") ∧
    ("confirmed" : String) ≠ "pending" :=
  ⟨rfl, by decide⟩

/-- C4 (amended): the Go Upload handler inserts the record with status
pending, responds with status pending and leaves the transaction hash
empty; only the detached uploadAsyncStep moves the record to confirmed
(ledger success, storing the hash) or failed (ledger error). The Node
backend instead performs the ledger call synchronously before the
insert and inserts and reports status confirmed even when that call
failed. -/
theorem upload_pending_only_go_async :
    (∀ (A : Aead) (ks : String → List Nat) (iv : List Nat) (cid u : String)
       (file : List Nat) (enc : Bool) (fn ct m : String) (db : DBState),
      FileHandler.Upload A ks iv (some cid) true u file enc fn ct m db =
        some ({ db with files := db.files ++
                  [{ cid := cid, uploaderAddr := u, fileSize := file.length,
                     isEncrypted := enc, fileName := fn, contentType := ct, metadata := m,
                     storageProvider := "web3storage", status := "pending", txHash := none }] },
              { cid := cid, fileSize := file.length, isEncrypted := enc,
                status := "pending" })) ∧
    (∀ (tx cid : String) (db : DBState) (i : Nat),
      (FileHandler.uploadAsyncStep (some tx) cid db).files[i]? =
        (db.files[i]?).map fun r =>
          if r.cid = cid then { r with status := "confirmed", txHash := some tx } else r) ∧
    (∀ (cid : String) (db : DBState) (i : Nat),
      (FileHandler.uploadAsyncStep none cid db).files[i]? =
        (db.files[i]?).map fun r =>
          if r.cid = cid then { r with status := "failed" } else r) ∧
    (∀ (L : Option String) (cid u : String) (file : List Nat) (enc : Bool)
       (fn ct m : String) (db : NodeBackend.JsDB)
       (p : NodeBackend.JsDB × FileHandler.UploadResp),
      NodeBackend.jsUpload L (some cid) u file enc fn ct m db = some p →
      p.2.status = "confirmed" ∧
      p.1.files = db.files ++
        [{ cid := cid, uploaderAddr := u, fileSize := file.length, isEncrypted := enc,
           fileName := fn, contentType := ct, metadata := m,
           storageProvider := "web3storage", status := "confirmed", txHash := L }]) := by
  refine ⟨?_, ?_, ?_, ?_⟩
  · intro A ks iv cid u file enc fn ct m db
    simp [FileHandler.Upload]
  · intro tx cid db i
    unfold FileHandler.uploadAsyncStep
    simp [List.getElem?_map]
  · intro cid db i
    unfold FileHandler.uploadAsyncStep
    simp [List.getElem?_map]
  · intro L cid u file enc fn ct m db p h
    simp only [NodeBackend.jsUpload, Option.some.injEq] at h
    rw [← h]
    exact ⟨rfl, rfl⟩

/-- Witness for C4 (amended): a concrete Node upload with a failed ledger
call still lands as confirmed with a null transaction hash. -/
theorem upload_pending_only_go_async_witness :
    (({ files := [{ cid := "c9", uploaderAddr := "u1", fileSize := 1, isEncrypted := false,
                    fileName := "f", contentType := "t", metadata := "m",
                    storageProvider := "web3storage", status := "confirmed",
                    txHash := none }], grants := [] } : NodeBackend.JsDB),
      ({ cid := "c9", fileSize := 1, isEncrypted := false,
         status := "confirmed" } : FileHandler.UploadResp)).2.status = "confirmed" ∧
    (({ files := [{ cid := "c9", uploaderAddr := "u1", fileSize := 1, isEncrypted := false,
                    fileName := "f", contentType := "t", metadata := "m",
                    storageProvider := "web3storage", status := "confirmed",
                    txHash := none }], grants := [] } : NodeBackend.JsDB),
      ({ cid := "c9", fileSize := 1, isEncrypted := false,
         status := "confirmed" } : FileHandler.UploadResp)).1.files =
      ([] : List FileRecord) ++
        [{ cid := "c9", uploaderAddr := "u1", fileSize := 1, isEncrypted := false,
           fileName := "f", contentType := "t", metadata := "m",
           storageProvider := "web3storage", status := "confirmed", txHash := none }] :=
  upload_pending_only_go_async.2.2.2 none "c9" "u1" [7] false "f" "t" "m"
    { files := [], grants := [] } _ rfl

/-! ## C7 -/

/-- Splitting the encrypt blob at the fixed offsets recovers exactly the
tag and ciphertext that the cipher produced, for any decryption key. -/
theorem decrypt_encrypt_reduces (A : Aead) (iv data key key2 : List Nat)
    (hiv : iv.length = 16) (htag : (A.enc key privychainAAD data).2.length = 16) :
    EncryptionService.decrypt A (EncryptionService.encrypt A iv data key) key2 =
      A.dec key2 privychainAAD (A.enc key privychainAAD data).1
        (A.enc key privychainAAD data).2 := by
  unfold EncryptionService.encrypt EncryptionService.decrypt
  have h1 : (iv ++ (A.enc key privychainAAD data).2 ++ (A.enc key privychainAAD data).1).drop 16
      = (A.enc key privychainAAD data).2 ++ (A.enc key privychainAAD data).1 := by
    rw [List.append_assoc, ← hiv, List.drop_left]
  have h2 : ((A.enc key privychainAAD data).2 ++ (A.enc key privychainAAD data).1).take 16
      = (A.enc key privychainAAD data).2 := by
    rw [← htag, List.take_left]
  have h3 : (iv ++ (A.enc key privychainAAD data).2 ++ (A.enc key privychainAAD data).1).drop 32
      = (A.enc key privychainAAD data).1 := by
    have hl : (iv ++ (A.enc key privychainAAD data).2).length = 32 := by
      rw [List.length_append, hiv, htag]
    rw [← hl, List.drop_left]
  rw [h1, h2, h3]

/-- C7: with a 16-byte nonce and a 16-byte tag, encrypt lays the blob out
as nonce then authTag then ciphertext at fixed offsets; whenever the
underlying AEAD cipher round-trips under the same key, decrypt of
encrypt returns the original data; and whenever the cipher rejects
(tag mismatch or a different key), decrypt reports a decryption
failure. -/
theorem encrypt_decrypt_roundtrip :
    ∀ (A : Aead) (iv data key : List Nat),
      iv.length = 16 →
      (A.enc key privychainAAD data).2.length = 16 →
      (EncryptionService.encrypt A iv data key =
        iv ++ (A.enc key privychainAAD data).2 ++ (A.enc key privychainAAD data).1) ∧
      (A.dec key privychainAAD (A.enc key privychainAAD data).1
          (A.enc key privychainAAD data).2 = some data →
        EncryptionService.decrypt A (EncryptionService.encrypt A iv data key) key
          = some data) ∧
      (∀ key2, A.dec key2 privychainAAD (A.enc key privychainAAD data).1
          (A.enc key privychainAAD data).2 = none →
        EncryptionService.decrypt A (EncryptionService.encrypt A iv data key) key2
          = none) := by
  intro A iv data key hiv htag
  refine ⟨rfl, ?_, ?_⟩
  · intro h
    rw [decrypt_encrypt_reduces A iv data key key hiv htag, h]
  · intro key2 h
    rw [decrypt_encrypt_reduces A iv data key key2 hiv htag, h]

/-- Witness for C7: the toy cipher round-trips a concrete payload under
the sample key, and decryption under the other sample key fails. -/
theorem encrypt_decrypt_roundtrip_witness :
    EncryptionService.decrypt toyAead
      (EncryptionService.encrypt toyAead sampleIv [1, 2, 3] (toyKeystore "u1"))
      (toyKeystore "u1") = some [1, 2, 3] ∧
    EncryptionService.decrypt toyAead
      (EncryptionService.encrypt toyAead sampleIv [1, 2, 3] (toyKeystore "u1"))
      (toyKeystore "v1") = none :=
  ⟨(encrypt_decrypt_roundtrip toyAead sampleIv [1, 2, 3] (toyKeystore "u1")
      (by decide) (by decide)).2.1 (by decide),
   (encrypt_decrypt_roundtrip toyAead sampleIv [1, 2, 3] (toyKeystore "u1")
      (by decide) (by decide)).2.2 (toyKeystore "v1") (by decide)⟩

/-! ## C10 -/

/-- C10: the Retrieve endpoint decrypts with the key of the requesting
user. For an encrypted record whose stored blob was produced under the
uploader key, a requester whose key the cipher rejects gets a
decryption failure even though the access gate admitted them (for
example through a valid grant); retrieval by the uploader, whose key
round-trips, returns the plaintext. -/
theorem retrieve_uses_requester_key :
    (∀ (A : Aead) (ks : String → List Nat) (storage : String → Option (List Nat))
       (db : DBState) (now : Int) (cid requester : String) (r : FileRecord)
       (iv data : List Nat),
      db.files.find? (fun x => x.cid == cid) = some r →
      r.isEncrypted = true →
      FileHandler.hasFileAccess db now cid requester = true →
      storage cid = some (EncryptionService.encrypt A iv data (ks r.uploaderAddr)) →
      iv.length = 16 →
      (A.enc (ks r.uploaderAddr) privychainAAD data).2.length = 16 →
      A.dec (ks requester) privychainAAD
          (A.enc (ks r.uploaderAddr) privychainAAD data).1
          (A.enc (ks r.uploaderAddr) privychainAAD data).2 = none →
      FileHandler.Retrieve A ks storage true db now cid requester
        = FileHandler.RetrieveResp.decryptFailed) ∧
    (∀ (A : Aead) (ks : String → List Nat) (storage : String → Option (List Nat))
       (db : DBState) (now : Int) (cid : String) (r : FileRecord)
       (iv data : List Nat),
      db.files.find? (fun x => x.cid == cid) = some r →
      r.isEncrypted = true →
      storage cid = some (EncryptionService.encrypt A iv data (ks r.uploaderAddr)) →
      iv.length = 16 →
      (A.enc (ks r.uploaderAddr) privychainAAD data).2.length = 16 →
      A.dec (ks r.uploaderAddr) privychainAAD
          (A.enc (ks r.uploaderAddr) privychainAAD data).1
          (A.enc (ks r.uploaderAddr) privychainAAD data).2 = some data →
      FileHandler.Retrieve A ks storage true db now cid r.uploaderAddr
        = FileHandler.RetrieveResp.ok data) := by
  constructor
  · intro A ks storage db now cid requester r iv data hf henc hacc hst hiv htag hdec
    unfold FileHandler.Retrieve
    rw [hf]
    simp only [hacc, hst, henc]
    rw [decrypt_encrypt_reduces A iv data (ks r.uploaderAddr) (ks requester) hiv htag, hdec]
    simp
  · intro A ks storage db now cid r iv data hf henc hst hiv htag hdec
    have hmem := List.mem_of_find?_eq_some hf
    have hcid : r.cid = cid := by
      have := List.find?_some hf
      simpa using this
    have hacc : FileHandler.hasFileAccess db now cid r.uploaderAddr = true := by
      unfold FileHandler.hasFileAccess
      simp only [Bool.or_eq_true, List.any_eq_true, Bool.and_eq_true, beq_iff_eq]
      exact Or.inl ⟨r, hmem, hcid, rfl⟩
    unfold FileHandler.Retrieve
    rw [hf]
    simp only [hacc, hst, henc]
    rw [decrypt_encrypt_reduces A iv data (ks r.uploaderAddr) (ks r.uploaderAddr) hiv htag,
      hdec]
    simp

/-- Witness for C10: with the toy cipher and keystore, the grantee v1
holding a live grant is denied by decryption failure while the uploader
u1 retrieves the plaintext. -/
theorem retrieve_uses_requester_key_witness :
    FileHandler.Retrieve toyAead toyKeystore
      (fun c => if c = "c1"
        then some (EncryptionService.encrypt toyAead sampleIv [9, 9] (toyKeystore "u1"))
        else none)
      true
      { files := [sampleEncrypted],
        grants := [{ cid := "c1", granterAddr := "u1", granteeAddr := "v1",
                     expiresAt := 10, isActive := true }] }
      0 "c1" "v1" = FileHandler.RetrieveResp.decryptFailed ∧
    FileHandler.Retrieve toyAead toyKeystore
      (fun c => if c = "c1"
        then some (EncryptionService.encrypt toyAead sampleIv [9, 9] (toyKeystore "u1"))
        else none)
      true
      { files := [sampleEncrypted],
        grants := [{ cid := "c1", granterAddr := "u1", granteeAddr := "v1",
                     expiresAt := 10, isActive := true }] }
      0 "c1" "u1" = FileHandler.RetrieveResp.ok [9, 9] :=
  ⟨retrieve_uses_requester_key.1 toyAead toyKeystore _ _ 0 "c1" "v1" sampleEncrypted
      sampleIv [9, 9] (by decide) rfl (by decide) rfl (by decide) (by decide) (by decide),
   retrieve_uses_requester_key.2 toyAead toyKeystore _ _ 0 "c1" sampleEncrypted
      sampleIv [9, 9] (by decide) rfl rfl (by decide) (by decide) (by decide)⟩

/-! ## C9 -/

/-- C9 counterexample: the HandleBlockchainEvent endpoint also ingests
externally pushed events but performs no authenticity check at all — it
takes no tag and answers 200 for any well-formed event — so the claimed
gating does not apply to every ingesting endpoint. -/
theorem blockchain_event_endpoint_unauthenticated :
    (WebhookHandler.HandleBlockchainEvent
        (some { event := "FileUploaded", address := "0xa", blockNumber := 1,
                txHash := "0xb" })
        { files := [sampleRewarded], grants := [] }).1 = WebhookHandler.WebhookResp.ok ∧
    (WebhookHandler.HandleBlockchainEvent
        (some { event := "FileUploaded", address := "0xa", blockNumber := 1,
                txHash := "0xb" })
        { files := [sampleRewarded], grants := [] }).1
      ≠ WebhookHandler.WebhookResp.unauthorized := by
  exact ⟨rfl, by decide⟩

/-- C9 (amended): the HandleWebhook endpoint is gated as claimed — the
HMAC-SHA256 tag over the raw body (constant-time comparison via
hmac.Equal, modelled extensionally) must match, a missing or mismatched
tag yields 401 with no state change, and only a verified request runs an
event handler. The HandleBlockchainEvent endpoint, however, ingests
blockchain events with no authenticity check (its processors are
currently logging stubs, so it also never changes state). -/
theorem webhook_hmac_gate :
    (∀ (hmacHex : String → List Nat → String) (secret sig : String)
       (body : Option (List Nat)),
      WebhookHandler.verifySignature hmacHex secret sig body = true ↔
        secret ≠ "" ∧ sig ≠ "" ∧
          ∃ b, body = some b ∧ trimPrefixStr "sha256=" sig = hmacHex secret b) ∧
    (∀ (hmacHex : String → List Nat → String) (secret sig : String)
       (body : Option (List Nat)) (ev : Option WebhookEvent) (now : Int) (s : DBState),
      WebhookHandler.verifySignature hmacHex secret sig body = false →
      WebhookHandler.HandleWebhook hmacHex secret sig body ev now s
        = (WebhookHandler.WebhookResp.unauthorized, s)) ∧
    (∀ (hmacHex : String → List Nat → String) (secret sig : String)
       (body : Option (List Nat)) (e : WebhookEvent) (now : Int) (s : DBState),
      WebhookHandler.verifySignature hmacHex secret sig body = true →
      WebhookHandler.HandleWebhook hmacHex secret sig body (some e) now s
        = (WebhookHandler.WebhookResp.ok, WebhookHandler.applyEvent now e s)) ∧
    (∀ (e : WebhookHandler.BlockchainEvent) (s : DBState),
      WebhookHandler.HandleBlockchainEvent (some e) s
        = (WebhookHandler.WebhookResp.ok, s)) := by
  refine ⟨?_, ?_, ?_, ?_⟩
  · intro hmacHex secret sig body
    unfold WebhookHandler.verifySignature
    by_cases hs : secret = "" || sig = ""
    · rw [if_pos hs]
      simp only [Bool.or_eq_true, decide_eq_true_iff] at hs
      simp only [Bool.false_eq_true, false_iff]
      intro hcon
      rcases hs with hs | hs
      · exact hcon.1 hs
      · exact hcon.2.1 hs
    · rw [if_neg hs]
      simp only [Bool.or_eq_true, decide_eq_true_iff, not_or] at hs
      cases body with
      | none =>
        simp only [Bool.false_eq_true, false_iff]
        intro hcon
        obtain ⟨b, hb, _⟩ := hcon.2.2
        exact Option.noConfusion hb
      | some b =>
        simp only [beq_iff_eq]
        constructor
        · intro h
          exact ⟨hs.1, hs.2, b, rfl, h⟩
        · rintro ⟨_, _, b2, hb2, h⟩
          cases hb2
          exact h
  · intro hmacHex secret sig body ev now s hv
    unfold WebhookHandler.HandleWebhook
    rw [hv]
    simp
  · intro hmacHex secret sig body e now s hv
    unfold WebhookHandler.HandleWebhook
    rw [hv]
    simp
  · intro e s
    rfl

/-- Witness for C9 (amended): a mismatched tag is rejected with 401 and
no state change, and a matching tag runs the delayed FileUploaded
handler, on concrete states. -/
theorem webhook_hmac_gate_witness :
    WebhookHandler.HandleWebhook (fun _ _ => "aa") "k" "bb" (some [1])
        (some sampleFileUploadedEvent) 0 { files := [sampleRewarded], grants := [] }
      = (WebhookHandler.WebhookResp.unauthorized,
         { files := [sampleRewarded], grants := [] }) ∧
    WebhookHandler.HandleWebhook (fun _ _ => "aa") "k" "aa" (some [1])
        (some sampleFileUploadedEvent) 0 { files := [sampleRewarded], grants := [] }
      = (WebhookHandler.WebhookResp.ok,
         WebhookHandler.applyEvent 0 sampleFileUploadedEvent
           { files := [sampleRewarded], grants := [] }) :=
  ⟨webhook_hmac_gate.2.1 (fun _ _ => "aa") "k" "bb" (some [1])
      (some sampleFileUploadedEvent) 0 { files := [sampleRewarded], grants := [] }
      (by decide),
   webhook_hmac_gate.2.2.1 (fun _ _ => "aa") "k" "aa" (some [1])
      sampleFileUploadedEvent 0 { files := [sampleRewarded], grants := [] }
      (by decide)⟩

/-! ## C8 -/

/-- Numeric behaviour of Char.toLower on code points. -/
theorem toNat_toLower (c : Char) :
    c.toLower.toNat = if 65 ≤ c.toNat ∧ c.toNat ≤ 90 then c.toNat + 32 else c.toNat := by
  unfold Char.toLower
  by_cases h : 65 ≤ c.toNat ∧ c.toNat ≤ 90
  · have hv : (c.toNat + 32).isValidChar := by
      left
      have := h.2
      omega
    rw [if_pos h, if_pos h]
    unfold Char.ofNat
    rw [dif_pos hv]
    simp [Char.ofNatAux, Char.toNat, UInt32.toNat]
  · rw [if_neg h, if_neg h]

/-- Characters with equal code points are equal. -/
theorem char_eq_of_toNat_eq {c d : Char} (h : c.toNat = d.toNat) : c = d :=
  Char.eq_of_val_eq (UInt32.toNat.inj h)

/-- Hex digit values are invariant under lowercasing. -/
theorem hexDigitVal_toLower (c : Char) : hexDigitVal c.toLower = hexDigitVal c := by
  have h := toNat_toLower c
  unfold hexDigitVal
  by_cases hc : 65 ≤ c.toNat ∧ c.toNat ≤ 90
  · rw [if_pos hc] at h
    simp only [h]
    have h1 : ¬ (48 ≤ c.toNat + 32 ∧ c.toNat + 32 ≤ 57) := by omega
    have h2 : ¬ (48 ≤ c.toNat ∧ c.toNat ≤ 57) := by omega
    have h3 : ¬ (97 ≤ c.toNat ∧ c.toNat ≤ 102) := by omega
    rw [if_neg h1, if_neg h2, if_neg h3]
    by_cases h4 : 65 ≤ c.toNat ∧ c.toNat ≤ 70
    · have h5 : 97 ≤ c.toNat + 32 ∧ c.toNat + 32 ≤ 102 := by omega
      rw [if_pos h5, if_pos h4]
      have : c.toNat + 32 - 87 = c.toNat - 55 := by omega
      rw [this]
    · have h5 : ¬ (97 ≤ c.toNat + 32 ∧ c.toNat + 32 ≤ 102) := by omega
      have h6 : ¬ (65 ≤ c.toNat + 32 ∧ c.toNat + 32 ≤ 70) := by omega
      rw [if_neg h5, if_neg h6, if_neg h4]
  · rw [if_neg hc] at h
    simp [h]

/-- Full description of when Char.toLower sends c to d. -/
theorem toLower_eq_iff (c d : Char) :
    c.toLower = d ↔
      ((65 ≤ c.toNat ∧ c.toNat ≤ 90 ∧ d.toNat = c.toNat + 32) ∨
       (¬ (65 ≤ c.toNat ∧ c.toNat ≤ 90) ∧ d = c)) := by
  have h := toNat_toLower c
  by_cases hc : 65 ≤ c.toNat ∧ c.toNat ≤ 90
  · rw [if_pos hc] at h
    constructor
    · intro he
      left
      refine ⟨hc.1, hc.2, ?_⟩
      rw [← he, h]
    · intro hd
      rcases hd with ⟨_, _, hd⟩ | ⟨hn, _⟩
      · exact char_eq_of_toNat_eq (h.trans hd.symm)
      · exact absurd hc hn
  · rw [if_neg hc] at h
    constructor
    · intro he
      right
      exact ⟨hc, he.symm.trans (char_eq_of_toNat_eq h)⟩
    · intro hd
      rcases hd with ⟨h1, _, _⟩ | ⟨_, hd⟩
      · exact absurd ⟨h1, by omega⟩ hc
      · rw [← hd] at h ⊢
        exact char_eq_of_toNat_eq h

/-- Partial hex decoding is invariant under lowercasing. -/
theorem hex2BytesChars_toLower : ∀ l : List Char,
    hex2BytesChars (l.map Char.toLower) = hex2BytesChars l
  | [] => rfl
  | [_] => rfl
  | c1 :: c2 :: rest => by
    simp only [List.map_cons]
    unfold hex2BytesChars
    rw [hexDigitVal_toLower c1, hexDigitVal_toLower c2]
    cases hexDigitVal c1 with
    | none => rfl
    | some h1 =>
      cases hexDigitVal c2 with
      | none => rfl
      | some h2 =>
        rw [hex2BytesChars_toLower rest]

/-- Prefix stripping commutes with lowercasing. -/
theorem strip0x_map_toLower (l : List Char) :
    strip0xChars (l.map Char.toLower) = (strip0xChars l).map Char.toLower := by
  match l with
  | [] => rfl
  | [c] => rfl
  | c1 :: c2 :: rest =>
    simp only [List.map_cons, strip0xChars]
    by_cases h : c1 = '0' ∧ (c2 = 'x' ∨ c2 = 'X')
    · have h1 : c1.toLower = '0' := by rw [h.1]; decide
      have h2 : c2.toLower = 'x' := by rcases h.2 with h2 | h2 <;> rw [h2] <;> decide
      rw [if_pos ⟨h1, Or.inl h2⟩, if_pos h]
    · have hn : ¬ (c1.toLower = '0' ∧ (c2.toLower = 'x' ∨ c2.toLower = 'X')) := by
        intro hcon
        apply h
        have hz48 : ('0' : Char).toNat = 48 := rfl
        have hx120 : ('x' : Char).toNat = 120 := rfl
        have hX88 : ('X' : Char).toNat = 88 := rfl
        constructor
        · rcases (toLower_eq_iff c1 '0').mp hcon.1 with ⟨_, _, hd⟩ | ⟨_, hd⟩
          · exfalso
            omega
          · exact hd.symm
        · rcases hcon.2 with hx | hX
          · rcases (toLower_eq_iff c2 'x').mp hx with ⟨_, _, hd⟩ | ⟨_, hd⟩
            · right
              apply char_eq_of_toNat_eq
              omega
            · left
              exact hd.symm
          · rcases (toLower_eq_iff c2 'X').mp hX with ⟨_, _, hd⟩ | ⟨_, hd⟩
            · exfalso
              omega
            · right
              exact hd.symm
      rw [if_neg hn, if_neg h]
      rfl

/-- HexToAddress parsing is invariant under lowercasing. -/
theorem addrFromHexChars_toLower (l : List Char) :
    addrFromHexChars (l.map Char.toLower) = addrFromHexChars l := by
  unfold addrFromHexChars
  simp only [strip0x_map_toLower, List.length_map]
  have h0 : ('0' :: strip0xChars l).map Char.toLower
      = '0' :: (strip0xChars l).map Char.toLower := by
    rw [List.map_cons]
    rfl
  by_cases h : (strip0xChars l).length % 2 = 1
  · rw [if_pos h, if_pos h, ← h0, hex2BytesChars_toLower]
  · rw [if_neg h, if_neg h, hex2BytesChars_toLower]

/-- C8: VerifySignature returns false on malformed hex, on any decoded
length other than 65 bytes and on recovery failure; on a well-formed
65-byte signature it normalizes the trailing recovery byte, hashes the
message under the domain-separating personal-message prefix with the
message length, and returns true exactly when the recovered address
equals the parsed claimed address; and the parse of the claimed address
— hence the comparison — is invariant under hex-letter case. -/
theorem verifySignature_characterization :
    (∀ (E : EthCrypto) (addr sig : String) (msg : List Nat),
      hexDecode (trimPrefixStr "0x" sig) = none →
      AuthService.VerifySignature E addr sig msg = false) ∧
    (∀ (E : EthCrypto) (addr sig : String) (msg bs : List Nat),
      hexDecode (trimPrefixStr "0x" sig) = some bs → bs.length ≠ 65 →
      AuthService.VerifySignature E addr sig msg = false) ∧
    (∀ (E : EthCrypto) (addr sig : String) (msg bs : List Nat),
      hexDecode (trimPrefixStr "0x" sig) = some bs → bs.length = 65 →
      E.recover (AuthService.createMessageHash E msg)
        (AuthService.normalizeRecoveryByte bs) = none →
      AuthService.VerifySignature E addr sig msg = false) ∧
    (∀ (E : EthCrypto) (addr sig : String) (msg bs pk : List Nat),
      hexDecode (trimPrefixStr "0x" sig) = some bs → bs.length = 65 →
      E.recover (AuthService.createMessageHash E msg)
        (AuthService.normalizeRecoveryByte bs) = some pk →
      (AuthService.VerifySignature E addr sig msg = true ↔
        E.pubToAddr pk = hexToAddress addr)) ∧
    (∀ l : List Char,
      hexToAddress (String.mk (l.map Char.toLower)) = hexToAddress (String.mk l)) ∧
    (∀ (E : EthCrypto) (sig : String) (msg : List Nat) (l : List Char),
      AuthService.VerifySignature E (String.mk (l.map Char.toLower)) sig msg
        = AuthService.VerifySignature E (String.mk l) sig msg) := by
  refine ⟨?_, ?_, ?_, ?_, ?_, ?_⟩
  · intro E addr sig msg hdec
    simp only [AuthService.VerifySignature]
    rw [hdec]
  · intro E addr sig msg bs hdec hlen
    simp only [AuthService.VerifySignature]
    rw [hdec]
    simp [hlen]
  · intro E addr sig msg bs hdec hlen hrec
    simp only [AuthService.VerifySignature]
    rw [hdec]
    simp only [hlen]
    rw [if_neg (by omega), hrec]
  · intro E addr sig msg bs pk hdec hlen hrec
    simp only [AuthService.VerifySignature]
    rw [hdec]
    simp only [hlen]
    rw [if_neg (by omega), hrec]
    simp [beq_iff_eq]
  · intro l
    exact addrFromHexChars_toLower l
  · intro E sig msg l
    simp only [AuthService.VerifySignature]
    rw [show hexToAddress (String.mk (l.map Char.toLower)) = hexToAddress (String.mk l)
      from addrFromHexChars_toLower l]

set_option maxRecDepth 8000 in
/-- Witness for C8: a concrete all-zero signature with recovery byte 27
verifies under the toy oracle against the matching claimed address. -/
theorem verifySignature_characterization_witness :
    AuthService.VerifySignature toyEthCrypto
      "0x0000000000000000000000000000000000000000"
      "0x000000000000000000000000000000000000000000000000000000000000000000000000000000000000000000000000000000000000000000000000000000001b"
      [] = true :=
  (verifySignature_characterization.2.2.2.1 toyEthCrypto
    "0x0000000000000000000000000000000000000000"
    "0x000000000000000000000000000000000000000000000000000000000000000000000000000000000000000000000000000000000000000000000000000000001b"
    [] (List.replicate 64 0 ++ [27]) (List.replicate 65 0)
    (by decide) (by decide) (by decide)).mpr (by decide)

end PrivyChain
